import Mathlib

namespace AwsCur

/-!
Verification development for the AWS Cost and Usage Reports extractor
(keboola/component-aws-cost-and-usage-reports).

The Python sources are shallowly embedded: strings are Lean `String`s
(sequences of Unicode code points, as in Python), dictionaries become
structures or `Option` fields, exceptions become `Option`/`Except`, and
loops that append to a list become structural recursions producing the
list in the same order.
-/

/-! ## Dates

Python `datetime.date`/`datetime` values are modelled by their
`(year, month, day)` components; Python compares dates exactly as the
lexicographic order on these components. -/

structure Date where
  year : Nat
  month : Nat
  day : Nat
deriving DecidableEq, Repr

/-- Python `date.__le__`: lexicographic comparison on (year, month, day). -/
def Date.le (a b : Date) : Bool :=
  if a.year = b.year then
    if a.month = b.month then Nat.ble a.day b.day
    else Nat.blt a.month b.month
  else Nat.blt a.year b.year

/-- Gregorian leap-year test, as in Python `calendar.isleap` /
`datetime._is_leap`. -/
def isLeapYear (y : Nat) : Bool :=
  y % 4 == 0 && (y % 100 != 0 || y % 400 == 0)

/-- Days in a month, as in Python `calendar.monthrange(y, m)[1]` for
`1 <= m <= 12` (0 for out-of-range months, which callers reject first). -/
def daysInMonth (y m : Nat) : Nat :=
  if m = 1 then 31 else if m = 2 then (if isLeapYear y then 29 else 28)
  else if m = 3 then 31 else if m = 4 then 30 else if m = 5 then 31
  else if m = 6 then 30 else if m = 7 then 31 else if m = 8 then 31
  else if m = 9 then 30 else if m = 10 then 31 else if m = 11 then 30
  else if m = 12 then 31 else 0

/-- Days before the start of month `m` in a non-leap year
(`datetime._DAYS_BEFORE_MONTH`). -/
def daysBeforeMonth (m : Nat) : Nat :=
  if m = 1 then 0 else if m = 2 then 31 else if m = 3 then 59
  else if m = 4 then 90 else if m = 5 then 120 else if m = 6 then 151
  else if m = 7 then 181 else if m = 8 then 212 else if m = 9 then 243
  else if m = 10 then 273 else if m = 11 then 304 else if m = 12 then 334
  else 365

/-- Days before January 1st of year `y` (`datetime._days_before_year`). -/
def daysBeforeYear (y : Nat) : Nat :=
  (y - 1) * 365 + (y - 1) / 4 - (y - 1) / 100 + (y - 1) / 400

/-- Proleptic-Gregorian ordinal of a date (`datetime._ymd2ord`);
0001-01-01 is ordinal 1. -/
def ymd2ord (y m d : Nat) : Nat :=
  daysBeforeYear y + daysBeforeMonth m
    + (if 2 < m && isLeapYear y then 1 else 0) + d

/-- Inverse of `ymd2ord` (port of `datetime._ord2ymd`). -/
def ord2ymd (n : Nat) : Date :=
  let n0 := n - 1
  let n400 := n0 / 146097
  let r400 := n0 % 146097
  let n100 := r400 / 36524
  let r100 := r400 % 36524
  let n4 := r100 / 1461
  let r4 := r100 % 1461
  let n1 := r4 / 365
  let r1 := r4 % 365
  let year := n400 * 400 + 1 + n100 * 100 + n4 * 4 + n1
  if n1 = 4 || n100 = 4 then
    ⟨year - 1, 12, 31⟩
  else
    let leap := n1 == 3 && (n4 != 24 || n100 == 3)
    let month0 := (r1 + 50) >>> 5
    let preceding0 := daysBeforeMonth month0 + (if 2 < month0 && leap then 1 else 0)
    let month := if r1 < preceding0 then month0 - 1 else month0
    let preceding :=
      if r1 < preceding0 then
        preceding0 - (daysInMonth 1 month + (if month = 2 && leap then 1 else 0))
      else preceding0
    ⟨year, month, r1 - preceding + 1⟩

/-- `datetime._isoweek1monday`: ordinal of the Monday starting ISO week 1
of `year`. -/
def isoWeek1Monday (year : Nat) : Nat :=
  let firstday := ymd2ord year 1 1
  let firstweekday := (firstday + 6) % 7
  let week1monday := firstday - firstweekday
  if 3 < firstweekday then week1monday + 7 else week1monday

/-- Python `date.fromisocalendar(year, week, day)`; `none` models the
`ValueError` raised on out-of-range arguments. -/
def fromisocalendar (year week day : Nat) : Option Date :=
  if year < 1 || 9999 < year then none
  else if !(0 < week && week < 53)
      && !(week = 53
            && (ymd2ord year 1 1 % 7 = 4
                || (ymd2ord year 1 1 % 7 = 3 && isLeapYear year))) then none
  else if !(0 < day && day < 8) then none
  else some (ord2ymd (isoWeek1Monday year + (week - 1) * 7 + (day - 1)))

/-! ## `datetime.strptime(s, "%Y%m%d")`

CPython's `_strptime` compiles `%Y%m%d` to the regex
`(\d{4})(\d{1,2})(\d{1,2})` and requires the match to consume the whole
string, so the input must be 6 to 8 digits; the regex engine's greedy
matching assigns 4 digits to the year, then 2 digits to the month when at
least one digit remains for the day, otherwise 1.  The resulting numbers
must form a valid date with year at least `datetime.MINYEAR = 1`.
Digits are modelled as ASCII digits (Python's `\d` and `int` additionally
accept non-ASCII decimal digits, which never occur in this data). -/

def digitsToNat (l : List Char) : Nat :=
  l.foldl (fun acc c => acc * 10 + (c.toNat - 48)) 0

def allDigits (l : List Char) : Bool :=
  l.all Char.isDigit

def mkValidDate (y m d : Nat) : Option Date :=
  if 1 ≤ y && 1 ≤ m && m ≤ 12 && 1 ≤ d && d ≤ daysInMonth y m then
    some ⟨y, m, d⟩
  else none

def strptimeYmd (s : String) : Option Date :=
  let l := s.data
  if !allDigits l then none
  else if l.length = 6 then
    mkValidDate (digitsToNat (l.take 4)) (digitsToNat ((l.drop 4).take 1))
      (digitsToNat (l.drop 5))
  else if l.length = 7 then
    mkValidDate (digitsToNat (l.take 4)) (digitsToNat ((l.drop 4).take 2))
      (digitsToNat (l.drop 6))
  else if l.length = 8 then
    mkValidDate (digitsToNat (l.take 4)) (digitsToNat ((l.drop 4).take 2))
      (digitsToNat (l.drop 6))
  else none

def splitTHeadChars : List Char → List Char
  | [] => []
  | c :: rest => if c = 'T' then [] else c :: splitTHeadChars rest

/-- Python `s.split("T")[0]`: the prefix of `s` before the first `"T"`. -/
def splitTHead (s : String) : String :=
  ⟨splitTHeadChars s.data⟩

def splitOnCharAux (sep : Char) : List Char → List (List Char)
  | [] => [[]]
  | c :: rest =>
    if c = sep then [] :: splitOnCharAux sep rest
    else
      match splitOnCharAux sep rest with
      | [] => [[c]]
      | h :: t => (c :: h) :: t

/-- Python `s.split(sep)` for a one-character separator (for example
`key.split("/")` and `folder_name.split("-")` in the sources);
`"".split(sep)` is `[""]`. -/
def pySplit (s : String) (sep : Char) : List String :=
  (splitOnCharAux sep s.data).map String.mk

/-- Python `s.lower()`, modelled for ASCII letters (the only case mapping
exercised by the sources' column names). -/
def pyLower (s : String) : String :=
  ⟨s.data.map Char.toLower⟩

/-- Python `s.endswith(suffix)`. -/
def strEndsWith (s suffix : String) : Bool :=
  suffix.data.isSuffixOf s.data

def charListLe : List Char → List Char → Bool
  | [], _ => true
  | _ :: _, [] => false
  | a :: as, b :: bs =>
    if a < b then true else if b < a then false else charListLe as bs

/-- Python `a <= b` on strings: lexicographic comparison of code points. -/
def pyStrLe (a b : String) : Bool :=
  charListLe a.data b.data

/-! ## Substring search and the `\d` character class -/

def hasSubstringAux (pat : List Char) : List Char → Bool
  | [] => pat.isPrefixOf []
  | c :: rest => pat.isPrefixOf (c :: rest) || hasSubstringAux pat rest

/-- Python `pat in s` for strings: `pat` occurs as a contiguous substring. -/
def hasSubstring (s pat : String) : Bool :=
  hasSubstringAux pat.data s.data

/-- Code-point ranges of the Unicode decimal digits (category `Nd`),
which is what Python's `re` matches for `\d` on `str` patterns. -/
def ndRanges : List (Nat × Nat) :=
  [(0x30, 0x39), (0x660, 0x669), (0x6F0, 0x6F9), (0x7C0, 0x7C9),
   (0x966, 0x96F), (0x9E6, 0x9EF), (0xA66, 0xA6F), (0xAE6, 0xAEF),
   (0xB66, 0xB6F), (0xBE6, 0xBEF), (0xC66, 0xC6F), (0xCE6, 0xCEF),
   (0xD66, 0xD6F), (0xDE6, 0xDEF), (0xE50, 0xE59), (0xED0, 0xED9),
   (0xF20, 0xF29), (0x1040, 0x1049), (0x1090, 0x1099), (0x17E0, 0x17E9),
   (0x1810, 0x1819), (0x1946, 0x194F), (0x19D0, 0x19D9), (0x1A80, 0x1A89),
   (0x1A90, 0x1A99), (0x1B50, 0x1B59), (0x1BB0, 0x1BB9), (0x1C40, 0x1C49),
   (0x1C50, 0x1C59), (0xA620, 0xA629), (0xA8D0, 0xA8D9), (0xA900, 0xA909),
   (0xA9D0, 0xA9D9), (0xA9F0, 0xA9F9), (0xAA50, 0xAA59), (0xABF0, 0xABF9),
   (0xFF10, 0xFF19), (0x104A0, 0x104A9), (0x10D30, 0x10D39),
   (0x11066, 0x1106F), (0x110F0, 0x110F9), (0x11136, 0x1113F),
   (0x111D0, 0x111D9), (0x112F0, 0x112F9), (0x11450, 0x11459),
   (0x114D0, 0x114D9), (0x11650, 0x11659), (0x116C0, 0x116C9),
   (0x11730, 0x11739), (0x118E0, 0x118E9), (0x11950, 0x11959),
   (0x11C50, 0x11C59), (0x11D50, 0x11D59), (0x11DA0, 0x11DA9),
   (0x16A60, 0x16A69), (0x16B50, 0x16B59), (0x1D7CE, 0x1D7FF),
   (0x1E140, 0x1E149), (0x1E2F0, 0x1E2F9), (0x1E950, 0x1E959),
   (0x1FBF0, 0x1FBF9)]

/-- Python's regex `\d` on `str`: any Unicode decimal digit. -/
def pyReDigit (c : Char) : Bool :=
  ndRanges.any (fun r => decide (r.1 ≤ c.toNat) && decide (c.toNat ≤ r.2))

/-- The regex `\d{8}-\d{8}` matches at the start of `l`. -/
def datePatternAt (l : List Char) : Bool :=
  let a := l.take 8
  let b := (l.drop 8).take 1
  let c := (l.drop 9).take 8
  a.length == 8 && a.all pyReDigit && b == ['-'] && c.length == 8
    && c.all pyReDigit

def hasDatePatternAux : List Char → Bool
  | [] => false
  | c :: rest => datePatternAt (c :: rest) || hasDatePatternAux rest

/-- Python `re.search(r"\d{8}-\d{8}", s) is not None`. -/
def hasDatePattern (s : String) : Bool :=
  hasDatePatternAux s.data

/-! ## ReportVersionDetector (src/aws_report_handlers/version_detector.py)

Only the `"Key"` entry of each listed S3 object is consulted by the
detector, so an object record is embedded by its key. -/

structure S3Object where
  key : String
deriving DecidableEq, Repr

/-- `ReportVersionDetector.detect_version`. -/
def detect_version (s3Objects : List S3Object) : String :=
  if s3Objects.isEmpty then "legacy"
  else if s3Objects.any (fun o => hasSubstring o.key "BILLING_PERIOD=") then
    "modern"
  else if s3Objects.any (fun o => hasDatePattern o.key) then "legacy"
  else if s3Objects.any (fun o => hasSubstring o.key "/metadata/") then
    "modern"
  else if s3Objects.any (fun o => strEndsWith o.key ".csv.zip") then "legacy"
  else "legacy"

/-! ## ColumnNormalizer (src/column_normalizer.py) -/

/-- The character class kept by `re.sub("[^a-zA-Z\d_]", "_", ...)`:
ASCII letters, Unicode decimal digits (`\d`), and underscore. -/
def isKbcKeepChar (c : Char) : Bool :=
  c.isAlpha || pyReDigit c || c == '_'

/-- `column_name.replace("/", "__")` at the character level. -/
def replaceSlashChars : List Char → List Char
  | [] => []
  | c :: rest =>
    if c = '/' then '_' :: '_' :: replaceSlashChars rest
    else c :: replaceSlashChars rest

/-- `re.sub("[^a-zA-Z\d_]", "_", s)`: a single-character class substitution
is a character-wise map. -/
def resubChars (l : List Char) : List Char :=
  l.map (fun c => if isKbcKeepChar c then c else '_')

/-- The per-name body of `ColumnNormalizer.normalize_column_names_for_kbc`. -/
def normalize_column_name (s : String) : String :=
  ⟨resubChars (replaceSlashChars s.data)⟩

/-- `ColumnNormalizer.normalize_column_names_for_kbc`: the loop appends one
normalized name per input name, in order. -/
def normalize_column_names_for_kbc (columnNames : List String) : List String :=
  columnNames.map normalize_column_name

/-- The loop state of `ColumnNormalizer.remove_duplicate_column_names`:
`seen` is `seen_lowercase`, and `counters` is the `duplicate_counters`
dict as a total function defaulting to 0 (`dict.get(k, 0)`). -/
def rdcnGo (separator : String) :
    List String → List String → (String → Nat) → List String
  | [], _, _ => []
  | name :: rest, seen, counters =>
    let lowercaseName := pyLower name
    if seen.contains lowercaseName then
      let counter := counters lowercaseName + 1
      (name ++ separator ++ toString counter)
        :: rdcnGo separator rest seen
            (fun b => if b = lowercaseName then counter else counters b)
    else
      name :: rdcnGo separator rest (seen ++ [lowercaseName]) counters

/-- `ColumnNormalizer.remove_duplicate_column_names` (its `separator`
parameter defaults to `"_"` in the source; every caller uses the default). -/
def remove_duplicate_column_names (columnNames : List String)
    (separator : String) : List String :=
  rdcnGo separator columnNames [] (fun _ => 0)

/-- One entry of a manifest's `columns` list (`{"category": ..., "name": ...}`). -/
structure ColumnDef where
  category : String
  name : String
deriving DecidableEq, Repr

/-- The part of a manifest consulted by the schema-unification code. -/
structure NormManifest where
  columns : List ColumnDef
deriving DecidableEq, Repr

/-- `ColumnNormalizer.get_manifest_normalized_columns`. -/
def get_manifest_normalized_columns (manifest : NormManifest) : List String :=
  remove_duplicate_column_names
    (normalize_column_names_for_kbc
      (manifest.columns.map (fun col => col.category ++ "/" ++ col.name)))
    "_"

/-- `target_column.replace("__", "/")` at the character level (Python's
`str.replace` scans left to right without overlap). -/
def replaceDunderChars : List Char → List Char
  | [] => []
  | '_' :: '_' :: rest => '/' :: replaceDunderChars rest
  | c :: rest => c :: replaceDunderChars rest

def replaceDunder (s : String) : String :=
  ⟨replaceDunderChars s.data⟩

/-- `ColumnNormalizer.build_column_aligned_select`: the loop appends, per
target column, either the quoted source column (when present) or a
`NULL AS` expression aliased to the target name. -/
def build_column_aligned_select :
    List String → List String → List String
  | [], _ => []
  | targetColumn :: rest, sourceColumns =>
    let originalColumn := replaceDunder targetColumn
    (if sourceColumns.contains originalColumn then
        "\"" ++ originalColumn ++ "\""
      else "NULL AS \"" ++ targetColumn ++ "\"")
      :: build_column_aligned_select rest sourceColumns

/-- The select expressions built by `DuckDB.create_unified_view`
(src/duckdb_client.py, identical loop in
`DuckDBProcessor.create_unified_view` of src/duckdb_processor.py). -/
def create_unified_view_select_parts :
    List String → List String → List String
  | [], _ => []
  | col :: rest, currentColumns =>
    let originalCol := replaceDunder col
    (if currentColumns.contains originalCol then
        "\"" ++ originalCol ++ "\" as \"" ++ col ++ "\""
      else "NULL as \"" ++ col ++ "\"")
      :: create_unified_view_select_parts rest currentColumns

/-- A SQL select expression carries `target` as its alias when it ends in
`AS "target"` (either capitalization used in the sources). -/
def aliasedTo (expr target : String) : Bool :=
  ("AS \"" ++ target ++ "\"").data.isSuffixOf expr.data
    || ("as \"" ++ target ++ "\"").data.isSuffixOf expr.data

/-! ### Claim C6 -/

/-- Python `list(set(xs))` followed by `.sort()`: the sorted list of the
distinct elements (canonical regardless of set iteration order). -/
def sortedDedup (l : List String) : List String :=
  List.insertionSort (fun a b => a ≤ b) l.dedup

/-- `ColumnNormalizer.get_max_header_normalized`: fold over the manifests,
replacing the header by the sorted set union whenever a manifest's
normalized columns are not a subset of the current header. -/
def get_max_header_normalized (manifests : List NormManifest)
    (currentHeader : List String) : List String :=
  manifests.foldl
    (fun header manifest =>
      let normalizedColumns := get_manifest_normalized_columns manifest
      if normalizedColumns.all (fun c => header.contains c) then header
      else sortedDedup (normalizedColumns ++ header))
    currentHeader

/-- All manifests' normalized-and-deduplicated columns, concatenated in
manifest order. -/
def allManifestColumns (manifests : List NormManifest) : List String :=
  (manifests.map get_manifest_normalized_columns).flatten

/-! ### Claims C4 and C5 -/

/-- The behaviour `remove_duplicate_column_names` was written to have,
stated positionally: the i-th output is the i-th input name, suffixed with
`"_"` and the number of earlier inputs with the same lowercase form when
that number is nonzero. -/
def dedupeSpec : List String → List String → List String
  | [], _ => []
  | name :: rest, processed =>
    let k := processed.countP (fun x => pyLower x == pyLower name)
    (if k = 0 then name else name ++ "_" ++ toString k)
      :: dedupeSpec rest (processed ++ [name])

/-! ## CUR 1.0 handler (src/aws_report_handlers/cur_1_report_handler.py) -/

/-- `CUR1ReportHandler._try_parse_billing_period_from_folder_name`.  In
the source the two `strptime` calls run inside one `try` with
`start_date` assigned first, so when only the second component fails to
parse the already-assigned start date is returned alongside `None`. -/
def try_parse_billing_period_from_folder_name (folderName : String) :
    Option Date × Option Date :=
  let periods := pySplit folderName '-'
  if periods.length = 2 then
    match strptimeYmd (periods.headD "") with
    | none => (none, none)
    | some startDate =>
      match strptimeYmd ((periods.drop 1).headD "") with
      | none => (some startDate, none)
      | some endDate => (some startDate, some endDate)
  else (none, none)

/-- The manifest-recognition gate of `CUR1ReportHandler.retrieve_manifests`
for one S3 key: the filename must equal `"<reportName>-Manifest.json"`,
and the parent folder — or, when it yields no start date and the key has
at least three components, the grandparent folder — must yield a start
date.  (For a matching filename in a key with no `/`, the Python
`key_parts[-2]` raises `IndexError`; such keys cannot occur under a
report prefix and are modelled as not recognized.) -/
def cur1_recognizes_key (key reportName : String) : Bool :=
  let keyParts := pySplit key '/'
  match keyParts.reverse with
  | [] => false
  | objectName :: rest =>
    if objectName ≠ reportName ++ "-Manifest.json" then false
    else
      match rest with
      | [] => false
      | parentFolderName :: rest2 =>
        match (try_parse_billing_period_from_folder_name parentFolderName).1 with
        | some _ => true
        | none =>
          match rest2 with
          | grandparentFolderName :: _ =>
            ((try_parse_billing_period_from_folder_name
                grandparentFolderName).1).isSome
          | [] => false

/-- The `billingPeriod` object of a CUR 1.0 manifest; missing `start` or
`end` keys surface as `""` via `dict.get(..., "")`.  The JSON key `end`
is a Lean keyword and is modelled as `endDate`. -/
structure BillingPeriodRaw where
  start : String
  endDate : String
deriving DecidableEq, Repr

/-- The part of a CUR 1.0 manifest consulted by its date filter; `none`
models a missing or empty (falsy) `billingPeriod`. -/
structure Cur1Manifest where
  billingPeriod : Option BillingPeriodRaw
deriving DecidableEq, Repr

/-- The loop body of `CUR1ReportHandler.filter_by_date_range`: skip on
missing/incomplete billing period or a parse failure, keep on
`period_end >= since and period_start <= until`. -/
def cur1FilterLoop : List Cur1Manifest → Date → Date → List Cur1Manifest
  | [], _, _ => []
  | m :: rest, sinceD, untilD =>
    let tail := cur1FilterLoop rest sinceD untilD
    match m.billingPeriod with
    | none => tail
    | some bp =>
      if bp.start = "" ∨ bp.endDate = "" then tail
      else
        match strptimeYmd (splitTHead bp.start),
            strptimeYmd (splitTHead bp.endDate) with
        | some periodStart, some periodEnd =>
          if Date.le sinceD periodEnd && Date.le periodStart untilD then
            m :: tail
          else tail
        | some _, none => tail
        | none, _ => tail

/-- `CUR1ReportHandler.filter_by_date_range`, including the
`if not since_dt or not until_dt: return manifests` early return. -/
def cur1_filter_by_date_range (manifests : List Cur1Manifest)
    (sinceDt untilDt : Option Date) : List Cur1Manifest :=
  match sinceDt, untilDt with
  | some sinceD, some untilD => cur1FilterLoop manifests sinceD untilD
  | some _, none => manifests
  | none, _ => manifests

/-! ## CUR 2.0 handler (src/aws_report_handlers/cur_2_report_handler.py)

The regex digit class `\d` of the period patterns is modelled as ASCII
digits, matching every period string AWS emits. -/

def matchesDaily (l : List Char) : Bool :=
  l.length == 10 && allDigits (l.take 4) && (l.drop 4).take 1 == ['-']
    && allDigits ((l.drop 5).take 2) && (l.drop 7).take 1 == ['-']
    && allDigits ((l.drop 8).take 2)

def matchesMonthly (l : List Char) : Bool :=
  l.length == 7 && allDigits (l.take 4) && (l.drop 4).take 1 == ['-']
    && allDigits ((l.drop 5).take 2)

def matchesYearly (l : List Char) : Bool :=
  l.length == 4 && allDigits l

def matchesWeekly (l : List Char) : Bool :=
  l.length == 7 && allDigits (l.take 4) && (l.drop 4).take 1 == ['W']
    && allDigits ((l.drop 5).take 2)

/-- `CUR2ReportHandler._parse_billing_period_range`: daily, monthly,
yearly and ISO-week period shapes, in source order; `none` models the
`(None, None)` returned on no match or a caught `ValueError` (such as an
out-of-range month or `datetime.MINYEAR` violation). -/
def parse_billing_period_range (period : String) : Option (Date × Date) :=
  let l := period.data
  if matchesDaily l then
    match mkValidDate (digitsToNat (l.take 4)) (digitsToNat ((l.drop 5).take 2))
        (digitsToNat ((l.drop 8).take 2)) with
    | some d => some (d, d)
    | none => none
  else if matchesMonthly l then
    let year := digitsToNat (l.take 4)
    let month := digitsToNat ((l.drop 5).take 2)
    if 1 ≤ year ∧ 1 ≤ month ∧ month ≤ 12 then
      some (⟨year, month, 1⟩, ⟨year, month, daysInMonth year month⟩)
    else none
  else if matchesYearly l then
    let year := digitsToNat l
    if 1 ≤ year then some (⟨year, 1, 1⟩, ⟨year, 12, 31⟩) else none
  else if hasSubstring period "W" then
    if matchesWeekly l then
      let year := digitsToNat (l.take 4)
      let week := digitsToNat ((l.drop 5).take 2)
      match fromisocalendar year week 1, fromisocalendar year week 7 with
      | some startDate, some endDate => some (startDate, endDate)
      | some _, none => none
      | none, _ => none
    else none
  else none

/-- The part of a CUR 2.0 manifest consulted by its date filter; `none`
models a missing `period` key (`manifest.get("period")`), and the empty
string is falsy in the `if not period` guard. -/
structure Cur2Manifest where
  period : Option String
deriving DecidableEq, Repr

/-- The loop body of `CUR2ReportHandler.filter_by_date_range`. -/
def cur2FilterLoop : List Cur2Manifest → Date → Date → List Cur2Manifest
  | [], _, _ => []
  | m :: rest, sinceD, untilD =>
    let tail := cur2FilterLoop rest sinceD untilD
    match m.period with
    | none => tail
    | some p =>
      if p = "" then tail
      else
        match parse_billing_period_range p with
        | some (periodStart, periodEnd) =>
          if Date.le sinceD periodEnd && Date.le periodStart untilD then
            m :: tail
          else tail
        | none => tail

/-- `CUR2ReportHandler.filter_by_date_range`, including the
`if not since_dt or not until_dt: return manifests` early return. -/
def cur2_filter_by_date_range (manifests : List Cur2Manifest)
    (sinceDt untilDt : Option Date) : List Cur2Manifest :=
  match sinceDt, untilDt with
  | some sinceD, some untilD => cur2FilterLoop manifests sinceD untilD
  | some _, none => manifests
  | none, _ => manifests

/-! ## AWSReportManager (src/aws_report_manager.py) -/

/-- The fields of a manifest consulted by
`AWSReportManager.filter_manifests_by_date_range` and by the overlap
comparison: `manifest["billingPeriod"]["start"]` and `["end"]` as the raw
strings of the manifest JSON. -/
structure MgrManifest where
  billingPeriodStart : String
  billingPeriodEnd : String
deriving DecidableEq, Repr

def padNat (n width : Nat) : String :=
  let s := toString n
  ⟨List.replicate (width - s.length) '0'⟩ ++ s

/-- `datetime.strftime(d, "%Y%m%d")` (zero-padded). -/
def strftimeYmd (d : Date) : String :=
  padNat d.year 4 ++ padNat d.month 2 ++ padNat d.day 2

/-- `AWSReportManager.filter_manifests_by_date_range`: the list
comprehension keeping the manifests with
`strftime(until) >= manifest["billingPeriod"]["start"].split("T")[0] >= strftime(since)`
— a string comparison on the period *start* only. -/
def filter_manifests_by_date_range (manifests : List MgrManifest)
    (sinceTimestamp untilTimestamp : Date) : List MgrManifest :=
  manifests.filter (fun manifest =>
    pyStrLe (splitTHead manifest.billingPeriodStart) (strftimeYmd untilTimestamp)
      && pyStrLe (strftimeYmd sinceTimestamp)
          (splitTHead manifest.billingPeriodStart))

/-! ## The spec's overlap predicate and the date-filter claims -/

/-- The spec's single overlap contract:
`overlaps(aStart, aEnd, bStart, bEnd) = aEnd >= bStart AND aStart <= bEnd`. -/
def overlaps (aStart aEnd bStart bEnd : Date) : Bool :=
  Date.le bStart aEnd && Date.le aStart bEnd

/-- The spec's `filterByRange` membership predicate for a CUR 1.0
manifest: parse both period bounds, drop unparseable manifests, keep
exactly on overlap. -/
def cur1KeepSpec (sinceD untilD : Date) (m : Cur1Manifest) : Bool :=
  match m.billingPeriod with
  | none => false
  | some bp =>
    if bp.start = "" ∨ bp.endDate = "" then false
    else
      match strptimeYmd (splitTHead bp.start),
          strptimeYmd (splitTHead bp.endDate) with
      | some periodStart, some periodEnd =>
        overlaps periodStart periodEnd sinceD untilD
      | some _, none => false
      | none, _ => false

/-- The spec's `filterByRange` membership predicate for a CUR 2.0
manifest. -/
def cur2KeepSpec (sinceD untilD : Date) (m : Cur2Manifest) : Bool :=
  match m.period with
  | none => false
  | some p =>
    if p = "" then false
    else
      match parse_billing_period_range p with
      | some (periodStart, periodEnd) =>
        overlaps periodStart periodEnd sinceD untilD
      | none => false

/-- The start-containment predicate actually used by
`AWSReportManager.filter_manifests_by_date_range`. -/
def mgrKeepSpec (sinceD untilD : Date) (m : MgrManifest) : Bool :=
  pyStrLe (splitTHead m.billingPeriodStart) (strftimeYmd untilD)
    && pyStrLe (strftimeYmd sinceD) (splitTHead m.billingPeriodStart)

/-! ## CUR 1.0 ZIP extraction (claim C8)

`_extract_all_zip_files_parallel` submits one download-and-extract unit
per `.zip` report key to a bounded worker pool and collects the results
of the units that complete without an exception, logging the others.
The S3/filesystem environment of one unit is modelled as a function from
the S3 key to either a failure message (any exception while downloading
or unzipping) or the list of extracted file names (`os.walk` order);
collection order is modelled as submission order (the pool's
`as_completed` order is a permutation of it). -/

structure ZipManifest where
  reportFolder : String
  reportKeys : List String
deriving DecidableEq, Repr

/-- The `reportKeys` path normalization applied per chunk key (the
special-cased `//` folder syntax). -/
def normalizeZipKey (m : ZipManifest) (chunkKey : String) : String :=
  let keyParts := pySplit chunkKey '/'
  if hasSubstring m.reportFolder "//" then
    match keyParts.reverse with
    | lastPart :: secondLast :: _ =>
      m.reportFolder ++ "/" ++ secondLast ++ "/" ++ lastPart
    | _ => chunkKey
  else chunkKey

/-- The `zip_tasks` list: every `.zip` report key of every manifest,
normalized, in manifest-then-key order. -/
def buildZipTasks (zipManifests : List ZipManifest) : List String :=
  (zipManifests.map (fun m =>
    (m.reportKeys.filter (fun k => strEndsWith k ".zip")).map
      (normalizeZipKey m))).flatten

/-- `CUR1ReportHandler._download_and_extract_zip`: any download/unzip
failure propagates as an error; an archive that extracts to files none
of which end in `.csv` raises `"No CSV file found in ZIP: <key>"`;
otherwise the first extracted `.csv` path is returned. -/
def download_and_extract_zip (env : String → Except String (List String))
    (s3Key : String) : Except String String :=
  match env s3Key with
  | Except.error e => Except.error e
  | Except.ok files =>
    match files.find? (fun f => strEndsWith f ".csv") with
    | some csvPath => Except.ok csvPath
    | none => Except.error ("No CSV file found in ZIP: " ++ s3Key)

/-- `CUR1ReportHandler._extract_all_zip_files_parallel`: each unit's
failure is caught and logged, and only successful extraction results are
collected. -/
def extract_all_zip_files_parallel
    (env : String → Except String (List String))
    (zipManifests : List ZipManifest) : List String :=
  (buildZipTasks zipManifests).filterMap
    (fun zipKey => (download_and_extract_zip env zipKey).toOption)

/-- A concrete two-archive environment for the C8 witness: `a.zip`
extracts to no CSV member, `b.zip` extracts to one CSV, and everything
else fails to download. -/
def c8Env : String → Except String (List String) := fun s3Key =>
  if s3Key = "reports/a.zip" then Except.ok ["part.txt"]
  else if s3Key = "reports/b.zip" then Except.ok ["data.csv"]
  else Except.error "download failed"

/-! ## Component no-op discovery (claim C9) -/

/-- The incremental state triple persisted between runs
(`last_file_timestamp`, `last_report_id`, `report_header`). -/
structure ComponentState where
  lastFileTimestamp : Option String
  lastReportId : Option String
  reportHeader : List String
deriving DecidableEq, Repr

/-- Outcome of `Component._discover_available_reports`: either proceed to
processing with the surviving manifests, or — on zero manifests — write
a state file and stop with an exit code, performing no load, schema
change, or export. -/
inductive DiscoverOutcome where
  | proceed (manifests : List MgrManifest)
  | cleanNoOp (writtenState : ComponentState) (exitCode : Nat)
deriving DecidableEq, Repr

/-- `Component._discover_available_reports`, given the manifests
retrieved from S3: filter by date range unless running incrementally
(`since_last`); when nothing remains, `write_state_file(self.last_state)`
then `exit(0)`. -/
def discover_available_reports (sinceLast : Bool)
    (manifests : List MgrManifest) (sinceTimestamp untilTimestamp : Date)
    (lastState : ComponentState) : DiscoverOutcome :=
  let reportManifests :=
    if sinceLast then manifests
    else filter_manifests_by_date_range manifests sinceTimestamp untilTimestamp
  if reportManifests.isEmpty then DiscoverOutcome.cleanNoOp lastState 0
  else DiscoverOutcome.proceed reportManifests

/-! ## Theorems -/

/-- Claim C7: format detection applies its heuristics in strict priority
order with first match winning — the result is `"modern"` exactly when
some key contains `BILLING_PERIOD=`, or no key matches `\d{8}-\d{8}` and
some key contains `/metadata/`; in every other case (including the empty
list, and keys ending in `.csv.zip`) the result is `"legacy"`; the
function is a pure function of the key strings and always returns one of
the two variants. -/
theorem c7_detect_version : ∀ s3Objects : List S3Object,
    (detect_version s3Objects = "modern" ∨ detect_version s3Objects = "legacy")
    ∧ (detect_version s3Objects = "modern" ↔
        (s3Objects.any (fun o => hasSubstring o.key "BILLING_PERIOD=") = true
         ∨ (s3Objects.any (fun o => hasDatePattern o.key) = false
            ∧ s3Objects.any (fun o => hasSubstring o.key "/metadata/") = true)))
    ∧ detect_version [] = "legacy"
    ∧ detect_version [⟨"metadata/BILLING_PERIOD=2024-09/x-Manifest.json"⟩]
        = "modern"
    ∧ detect_version [⟨"20240101-20240131/x-Manifest.json"⟩] = "legacy" := by
  intro s3Objects
  refine ⟨?_, ?_, by decide, by decide, by decide⟩
  · unfold detect_version
    split_ifs <;> simp
  · unfold detect_version
    split_ifs with h0 h1 h2 h3 h4 <;>
      simp_all [List.isEmpty_iff, List.any_eq_true]

/-! ### Claim C10 -/

lemma resubChars_all_keep (l : List Char) :
    (resubChars l).all isKbcKeepChar = true := by
  induction l with
  | nil => rfl
  | cons c rest ih =>
    simp only [resubChars, List.map_cons, List.all_cons] at ih ⊢
    cases h : isKbcKeepChar c
    · simp [h, ih]
      decide
    · simp [h, ih]

lemma replaceSlashChars_of_keep (l : List Char)
    (h : l.all isKbcKeepChar = true) : replaceSlashChars l = l := by
  induction l with
  | nil => rfl
  | cons c rest ih =>
    simp only [List.all_cons, Bool.and_eq_true] at h
    have hc : c ≠ '/' := by
      intro hc
      subst hc
      exact absurd h.1 (by decide)
    simp [replaceSlashChars, hc, ih h.2]

lemma resubChars_of_keep (l : List Char)
    (h : l.all isKbcKeepChar = true) : resubChars l = l := by
  induction l with
  | nil => rfl
  | cons c rest ih =>
    simp only [List.all_cons, Bool.and_eq_true] at h
    have ht := ih h.2
    simp only [resubChars, List.map_cons] at ht ⊢
    rw [if_pos h.1, ht]

lemma normalize_column_name_idem (s : String) :
    normalize_column_name (normalize_column_name s) = normalize_column_name s := by
  unfold normalize_column_name
  have hkeep := resubChars_all_keep (replaceSlashChars s.data)
  rw [show (String.mk (resubChars (replaceSlashChars s.data))).data
        = resubChars (replaceSlashChars s.data) from rfl]
  rw [replaceSlashChars_of_keep _ hkeep, resubChars_of_keep _ hkeep]

/-- Claim C10, corrected: normalization is length-preserving and
idempotent, and every character of every output name is kept by the
`[a-zA-Z\d_]` class — that is, it is an ASCII letter, an underscore, or a
Unicode decimal digit (Python's `\d` also retains non-ASCII decimal
digits, so the output alphabet is not limited to `[A-Za-z0-9_]`). -/
theorem c10_normalize_properties : ∀ columnNames : List String,
    (normalize_column_names_for_kbc columnNames).length = columnNames.length
    ∧ (normalize_column_names_for_kbc columnNames).all
        (fun s => s.data.all isKbcKeepChar) = true
    ∧ normalize_column_names_for_kbc (normalize_column_names_for_kbc columnNames)
        = normalize_column_names_for_kbc columnNames := by
  intro columnNames
  refine ⟨by simp [normalize_column_names_for_kbc], ?_, ?_⟩
  · simp only [normalize_column_names_for_kbc, List.all_map, List.all_eq_true]
    intro s _
    exact resubChars_all_keep _
  · simp only [normalize_column_names_for_kbc, List.map_map]
    exact List.map_congr_left fun s _ => normalize_column_name_idem s

/-- Claim C10, counterexample: the Arabic-Indic digit `'٣'` (U+0663) is a
Unicode decimal digit, so `re.sub("[^a-zA-Z\d_]", "_", ...)` leaves it in
place, and the normalized output contains a character outside
`[A-Za-z0-9_]`. -/
theorem c10_counterexample :
    normalize_column_names_for_kbc ["٣"] = ["٣"]
    ∧ ('٣'.isAlpha || '٣'.isDigit || '٣' == '_') = false :=
  ⟨by decide, by decide⟩

lemma mem_sortedDedup {x : String} {l : List String} :
    x ∈ sortedDedup l ↔ x ∈ l := by
  simp [sortedDedup, List.mem_insertionSort, List.mem_dedup]

lemma sortedDedup_eq_of_mem_iff {l l' : List String}
    (h : ∀ x, x ∈ l ↔ x ∈ l') : sortedDedup l = sortedDedup l' := by
  have pd : List.Perm l.dedup l'.dedup := by
    rw [List.perm_ext_iff_of_nodup (List.nodup_dedup l) (List.nodup_dedup l')]
    intro a
    simp [List.mem_dedup, h a]
  have p1 := List.perm_insertionSort (fun a b : String => a ≤ b) l.dedup
  have p2 := List.perm_insertionSort (fun a b : String => a ≤ b) l'.dedup
  have hperm : List.Perm (sortedDedup l) (sortedDedup l') := by
    unfold sortedDedup
    exact p1.trans (pd.trans p2.symm)
  exact List.eq_of_perm_of_sorted hperm
    (List.sorted_insertionSort _ _) (List.sorted_insertionSort _ _)

lemma contains_iff_mem {l : List String} {x : String} :
    l.contains x = true ↔ x ∈ l := by
  simp

lemma gmhn_fold (manifests : List NormManifest) :
    ∀ header : List String,
    get_max_header_normalized manifests header
      = if (allManifestColumns manifests).all (fun c => header.contains c) then
          header
        else sortedDedup (allManifestColumns manifests ++ header) := by
  induction manifests with
  | nil =>
    intro header
    simp [get_max_header_normalized, allManifestColumns]
  | cons m rest ih =>
    intro header
    have hstep : get_max_header_normalized (m :: rest) header
        = get_max_header_normalized rest
            (if (get_manifest_normalized_columns m).all
                 (fun c => header.contains c) then header
             else sortedDedup (get_manifest_normalized_columns m ++ header)) := by
      simp [get_max_header_normalized]
    have hall : allManifestColumns (m :: rest)
        = get_manifest_normalized_columns m ++ allManifestColumns rest := by
      simp [allManifestColumns]
    rw [hstep, hall]
    cases hA : (get_manifest_normalized_columns m).all (fun c => header.contains c)
    · -- the first manifest introduces a new column
      simp only [Bool.false_eq_true, if_false]
      rw [ih (sortedDedup (get_manifest_normalized_columns m ++ header))]
      have hcondfalse :
          ((get_manifest_normalized_columns m ++ allManifestColumns rest).all
            (fun c => header.contains c)) = false := by
        rw [List.all_append, hA, Bool.false_and]
      rw [hcondfalse]
      simp only [Bool.false_eq_true, if_false]
      cases hB : (allManifestColumns rest).all
          (fun c => (sortedDedup (get_manifest_normalized_columns m ++ header)).contains c)
      · -- later manifests also add columns
        simp only [Bool.false_eq_true, if_false]
        apply sortedDedup_eq_of_mem_iff
        intro x
        simp only [List.mem_append, mem_sortedDedup]
        tauto
      · -- later manifests add nothing beyond the first union
        simp only [if_true]
        have hsub : ∀ x ∈ allManifestColumns rest,
            x ∈ get_manifest_normalized_columns m ++ header := by
          intro x hx
          have := List.all_eq_true.mp hB x hx
          rw [contains_iff_mem] at this
          exact mem_sortedDedup.mp this
        apply sortedDedup_eq_of_mem_iff
        intro x
        have hs := fun hx => hsub x hx
        simp only [List.mem_append] at hs ⊢
        tauto
    · -- the first manifest's columns are already in the header
      simp only [if_true]
      rw [ih header]
      have hsub : ∀ x ∈ get_manifest_normalized_columns m, x ∈ header := by
        intro x hx
        have := List.all_eq_true.mp hA x hx
        rwa [contains_iff_mem] at this
      have hcond :
          ((get_manifest_normalized_columns m ++ allManifestColumns rest).all
            (fun c => header.contains c))
          = (allManifestColumns rest).all (fun c => header.contains c) := by
        rw [List.all_append, hA, Bool.true_and]
      rw [hcond]
      cases hB : (allManifestColumns rest).all (fun c => header.contains c)
      · simp only [Bool.false_eq_true, if_false]
        apply sortedDedup_eq_of_mem_iff
        intro x
        have hs := fun hx => hsub x hx
        simp only [List.mem_append] at hs ⊢
        tauto
      · simp

/-- Claim C6: the union-schema pass returns the current header unchanged
(same list, same order) when every manifest's normalized and deduplicated
columns are already contained in it, and otherwise returns the sorted
deduplicated union of the current header with all manifests' normalized
columns; in either case every element of the input header is a member of
the result. -/
theorem c6_union_schema :
    ∀ (manifests : List NormManifest) (currentHeader : List String),
    get_max_header_normalized manifests currentHeader
      = (if (allManifestColumns manifests).all
            (fun c => currentHeader.contains c) then currentHeader
         else sortedDedup (allManifestColumns manifests ++ currentHeader))
    ∧ currentHeader.all
        (fun x => (get_max_header_normalized manifests currentHeader).contains x)
        = true := by
  intro manifests currentHeader
  refine ⟨gmhn_fold manifests currentHeader, ?_⟩
  rw [List.all_eq_true]
  intro x hx
  rw [contains_iff_mem, gmhn_fold manifests currentHeader]
  cases hc : (allManifestColumns manifests).all (fun c => currentHeader.contains c)
  · simp only [Bool.false_eq_true, if_false]
    rw [mem_sortedDedup]
    exact List.mem_append.mpr (Or.inr hx)
  · simpa using hx

lemma dedupeSpec_length (l : List String) :
    ∀ processed, (dedupeSpec l processed).length = l.length := by
  induction l with
  | nil => intro _; rfl
  | cons name rest ih => intro processed; simp [dedupeSpec, ih]

lemma rdcnGo_eq_dedupeSpec (rest : List String) :
    ∀ (seen : List String) (counters : String → Nat) (processed : List String),
    (∀ b : String, seen.contains b = processed.any (fun x => pyLower x == b)) →
    (∀ b : String,
      counters b = processed.countP (fun x => pyLower x == b) - 1) →
    rdcnGo "_" rest seen counters = dedupeSpec rest processed := by
  induction rest with
  | nil => intro _ _ _ _ _; rfl
  | cons name rest ih =>
    intro seen counters processed hseen hcnt
    simp only [rdcnGo, dedupeSpec]
    cases hc : seen.contains (pyLower name)
    · have hp : processed.any (fun x => pyLower x == pyLower name) = false := by
        rw [← hseen]; exact hc
      have hk : processed.countP (fun x => pyLower x == pyLower name) = 0 := by
        rw [List.countP_eq_zero]
        intro a ha
        have := List.any_eq_false.mp hp a ha
        simpa using this
      simp only [hc, hk, if_pos rfl, Bool.false_eq_true, if_false]
      congr 1
      apply ih
      · intro b
        have hgoal : (processed ++ [name]).any (fun x => pyLower x == b)
            = ((processed.any fun x => pyLower x == b) || (pyLower name == b)) := by
          simp [List.any_append]
        rw [hgoal, ← hseen b]
        cases hb : (pyLower name == b)
        · have hne : b ≠ pyLower name := by
            intro h
            subst h
            simp at hb
          simp [List.mem_append, hne]
        · have hbe : pyLower name = b := by simpa using hb
          subst hbe
          simp [List.mem_append]
      · intro b
        rw [List.countP_append, hcnt]
        simp only [List.countP_cons, List.countP_nil]
        cases hb : (pyLower name == b)
        · have hne : ¬ b = pyLower name := by
            intro h
            subst h
            simp at hb
          simp [hb, hne]
        · have hbe : pyLower name = b := by simpa using hb
          subst hbe
          rw [hk]
          simp [hb]
    · have hp : processed.any (fun x => pyLower x == pyLower name) = true := by
        rw [← hseen]; exact hc
      have hk : 0 < processed.countP (fun x => pyLower x == pyLower name) := by
        rw [List.countP_pos_iff]
        obtain ⟨a, ha, hpa⟩ := List.any_eq_true.mp hp
        exact ⟨a, ha, hpa⟩
      have hcounter : counters (pyLower name) + 1
          = processed.countP (fun x => pyLower x == pyLower name) := by
        rw [hcnt]; omega
      simp only [hc, if_true]
      rw [if_neg (by omega)]
      congr 1
      · rw [hcounter]
      · apply ih
        · intro b
          have hgoal : (processed ++ [name]).any (fun x => pyLower x == b)
              = ((processed.any fun x => pyLower x == b) || (pyLower name == b)) := by
            simp [List.any_append]
          rw [hgoal, ← hseen b]
          cases hb : (pyLower name == b)
          · simp
          · have hbe : pyLower name = b := by simpa using hb
            subst hbe
            simp only [hb, Bool.or_true]
            exact hc
        · intro b
          rw [List.countP_append]
          simp only [List.countP_cons, List.countP_nil]
          cases hb : (pyLower name == b)
          · have hne : ¬ b = pyLower name := by
              intro h
              subst h
              simp at hb
            simp [hb, hne, hcnt b]
          · have hbe : pyLower name = b := by simpa using hb
            subst hbe
            rw [if_pos rfl]
            simp only [hb, if_true]
            omega

/-- Claim C4 (code bug): for the input `["cost_1", "cost", "cost"]` the
dedupe pass suffixes the duplicate `"cost"` to `"cost_1"`, which collides
with the verbatim first name, so the returned list is not
case-insensitively unique. -/
theorem c4_dedupe_collision_bug :
    remove_duplicate_column_names ["cost_1", "cost", "cost"] "_"
      = ["cost_1", "cost", "cost_1"]
    ∧ ¬ ((["cost_1", "cost", "cost_1"].map pyLower).Nodup) :=
  ⟨by decide, by decide⟩

/-- Claim C5: the dedupe pass preserves input order and length, keeps the
first occurrence of each case-insensitive name verbatim, and suffixes the
k-th later collision of a lowercase base with `"_" ++ k`, counting per
base independently; in particular
`dedupe(["Cost","cost","COST"]) = ["Cost","cost_1","COST_2"]`. -/
theorem c5_dedupe_characterization : ∀ columnNames : List String,
    remove_duplicate_column_names columnNames "_" = dedupeSpec columnNames []
    ∧ (remove_duplicate_column_names columnNames "_").length
        = columnNames.length
    ∧ remove_duplicate_column_names ["Cost", "cost", "COST"] "_"
        = ["Cost", "cost_1", "COST_2"] := by
  intro columnNames
  have hmain : remove_duplicate_column_names columnNames "_"
      = dedupeSpec columnNames [] := by
    apply rdcnGo_eq_dedupeSpec <;> intro b <;> simp
  refine ⟨hmain, ?_, by decide⟩
  rw [hmain]
  exact dedupeSpec_length columnNames []

/-! ### Claim C3 -/

lemma build_column_aligned_select_spec (sourceColumns : List String) :
    ∀ targetColumns : List String,
    List.Forall₂ (fun t e =>
        e = if sourceColumns.contains (replaceDunder t) = true then
              "\"" ++ replaceDunder t ++ "\""
            else "NULL AS \"" ++ t ++ "\"")
      targetColumns (build_column_aligned_select targetColumns sourceColumns) := by
  intro targetColumns
  induction targetColumns with
  | nil => exact List.Forall₂.nil
  | cons t rest ih =>
    simp only [build_column_aligned_select]
    refine List.Forall₂.cons ?_ ih
    cases h : sourceColumns.contains (replaceDunder t) <;> simp [h]

lemma create_unified_view_aliases (currentColumns : List String) :
    ∀ finalColumns : List String,
    List.Forall₂ (fun c e => aliasedTo e c = true)
      finalColumns (create_unified_view_select_parts finalColumns currentColumns) := by
  intro finalColumns
  induction finalColumns with
  | nil => exact List.Forall₂.nil
  | cons c rest ih =>
    simp only [create_unified_view_select_parts]
    refine List.Forall₂.cons ?_ ih
    cases h : currentColumns.contains (replaceDunder c) <;>
      simp only [h, Bool.false_eq_true, if_false, if_true, aliasedTo,
        Bool.or_eq_true, List.isSuffixOf_iff_suffix, String.data_append]
    · refine Or.inr ⟨('N' : Char) :: ['U', 'L', 'L', ' '], ?_⟩
      simp
    · refine Or.inr ⟨('"' : Char) :: (replaceDunder c).data ++ ['"', ' '], ?_⟩
      simp

/-- Claim C3, corrected: both alignment helpers return one select
expression per target column in target-schema order; in
`create_unified_view` every expression — present column or NULL — is
aliased to the target name, but in `build_column_aligned_select` only the
NULL branch carries the alias: a present column is selected as its quoted
denormalized name with no alias. -/
theorem c3_align_select_characterization :
    ∀ (targetColumns sourceColumns : List String),
    List.Forall₂ (fun t e =>
        e = if sourceColumns.contains (replaceDunder t) = true then
              "\"" ++ replaceDunder t ++ "\""
            else "NULL AS \"" ++ t ++ "\"")
      targetColumns (build_column_aligned_select targetColumns sourceColumns)
    ∧ List.Forall₂ (fun c e => aliasedTo e c = true)
        targetColumns (create_unified_view_select_parts targetColumns sourceColumns)
    ∧ (build_column_aligned_select targetColumns sourceColumns).length
        = targetColumns.length
    ∧ (create_unified_view_select_parts targetColumns sourceColumns).length
        = targetColumns.length := by
  intro targetColumns sourceColumns
  refine ⟨build_column_aligned_select_spec sourceColumns targetColumns,
    create_unified_view_aliases sourceColumns targetColumns, ?_, ?_⟩
  · exact (build_column_aligned_select_spec sourceColumns targetColumns).length_eq.symm
  · exact (create_unified_view_aliases sourceColumns targetColumns).length_eq.symm

/-- Claim C3, counterexample: for target `"identity__LineItemId"` present
in the source columns, `build_column_aligned_select` emits the quoted
source column with no alias — the expression does not end in an
`AS "identity__LineItemId"` alias as the claim requires of every
expression. -/
theorem c3_counterexample :
    build_column_aligned_select ["identity__LineItemId"] ["identity/LineItemId"]
      = ["\"identity/LineItemId\""]
    ∧ aliasedTo "\"identity/LineItemId\"" "identity__LineItemId" = false :=
  ⟨by decide, by decide⟩

lemma cur1FilterLoop_eq_filter (sinceD untilD : Date) :
    ∀ manifests : List Cur1Manifest,
    cur1FilterLoop manifests sinceD untilD
      = manifests.filter (cur1KeepSpec sinceD untilD) := by
  intro manifests
  induction manifests with
  | nil => rfl
  | cons m rest ih =>
    simp only [cur1FilterLoop, List.filter_cons, ih]
    cases hbp : m.billingPeriod with
    | none => simp [cur1KeepSpec, hbp]
    | some bp =>
      simp only [cur1KeepSpec, hbp]
      by_cases hempty : bp.start = "" ∨ bp.endDate = ""
      · simp [hempty]
      · simp only [hempty, if_false]
        cases hs : strptimeYmd (splitTHead bp.start) with
        | none => simp
        | some periodStart =>
          cases he : strptimeYmd (splitTHead bp.endDate) with
          | none => simp
          | some periodEnd =>
            simp only [overlaps]

lemma cur2FilterLoop_eq_filter (sinceD untilD : Date) :
    ∀ manifests : List Cur2Manifest,
    cur2FilterLoop manifests sinceD untilD
      = manifests.filter (cur2KeepSpec sinceD untilD) := by
  intro manifests
  induction manifests with
  | nil => rfl
  | cons m rest ih =>
    simp only [cur2FilterLoop, List.filter_cons, ih]
    cases hp : m.period with
    | none => simp [cur2KeepSpec, hp]
    | some p =>
      simp only [cur2KeepSpec, hp]
      by_cases hempty : p = ""
      · simp [hempty]
      · simp only [hempty, if_false]
        cases hr : parse_billing_period_range p with
        | none => simp
        | some se =>
          obtain ⟨periodStart, periodEnd⟩ := se
          simp only [overlaps]

/-- Claim C1, corrected: the CUR 1.0 and CUR 2.0 handler date filters
keep exactly the manifests whose parsed inclusive billing period
overlaps `[since, until]` under the closed-interval predicate
`aEnd >= bStart AND aStart <= bEnd` (boundary-touching manifests kept,
unparseable manifests dropped); but not every date filter in the program
uses this predicate: `AWSReportManager.filter_manifests_by_date_range`
keeps exactly the manifests whose period *start* string lies within
`[strftime(since), strftime(until)]`, a start-containment variant. -/
theorem c1_date_filters_characterization :
    ∀ (sinceD untilD : Date),
    (∀ manifests : List Cur1Manifest,
      cur1_filter_by_date_range manifests (some sinceD) (some untilD)
        = manifests.filter (cur1KeepSpec sinceD untilD))
    ∧ (∀ manifests : List Cur2Manifest,
      cur2_filter_by_date_range manifests (some sinceD) (some untilD)
        = manifests.filter (cur2KeepSpec sinceD untilD))
    ∧ (∀ manifests : List MgrManifest,
      filter_manifests_by_date_range manifests sinceD untilD
        = manifests.filter (mgrKeepSpec sinceD untilD)) := by
  intro sinceD untilD
  exact ⟨cur1FilterLoop_eq_filter sinceD untilD,
    cur2FilterLoop_eq_filter sinceD untilD, fun _ => rfl⟩

/-- Claim C1, counterexample: a manifest for 2024-01-01 .. 2024-01-31
overlaps the filter range 2024-01-15 .. 2024-02-15 (and the CUR 1.0
handler filter keeps it), yet `AWSReportManager.filter_manifests_by_date_range`
drops it, because its period start precedes `since` — so not every date
filter in the program implements the shared overlap predicate. -/
theorem c1_counterexample :
    overlaps ⟨2024, 1, 1⟩ ⟨2024, 1, 31⟩ ⟨2024, 1, 15⟩ ⟨2024, 2, 15⟩ = true
    ∧ strptimeYmd (splitTHead "20240101T000000.000Z") = some ⟨2024, 1, 1⟩
    ∧ strptimeYmd (splitTHead "20240131T000000.000Z") = some ⟨2024, 1, 31⟩
    ∧ cur1_filter_by_date_range
        [⟨some ⟨"20240101T000000.000Z", "20240131T000000.000Z"⟩⟩]
        (some ⟨2024, 1, 15⟩) (some ⟨2024, 2, 15⟩)
      = [⟨some ⟨"20240101T000000.000Z", "20240131T000000.000Z"⟩⟩]
    ∧ filter_manifests_by_date_range
        [⟨"20240101T000000.000Z", "20240131T000000.000Z"⟩]
        ⟨2024, 1, 15⟩ ⟨2024, 2, 15⟩
      = [] :=
  ⟨by decide, by decide, by decide, by decide, by decide⟩

/-- Claim C2 (code bug): for the folder name `"20240101-x"` — two dash
components of which only the first parses — the parse is not rejected as
a whole: it returns `(some 2024-01-01, none)`, and the recognition gate
(`if start_date:`) then treats the folder as a billing-period folder,
although `strptimeYmd "x"` fails and the function's own docstring
promises `(None, None)` for invalid content. -/
theorem c2_partial_parse_bug :
    try_parse_billing_period_from_folder_name "20240101-x"
      = (some ⟨2024, 1, 1⟩, none)
    ∧ strptimeYmd "x" = none
    ∧ cur1_recognizes_key "myreport/20240101-x/myreport-Manifest.json"
        "myreport" = true :=
  ⟨by decide, by decide, by decide⟩

/-- Claim C8: the collected extraction results are exactly the outputs of
the units that succeeded — one unit's failure never removes a sibling's
result and failed units contribute nothing — and, within one archive,
extracting zero `.csv` members is an error for that archive, never a
silent empty success. -/
theorem c8_zip_extraction_isolation :
    ∀ (env : String → Except String (List String))
      (zipManifests : List ZipManifest),
    (∀ csvPath : String,
      csvPath ∈ extract_all_zip_files_parallel env zipManifests ↔
        ∃ zipKey ∈ buildZipTasks zipManifests,
          download_and_extract_zip env zipKey = Except.ok csvPath)
    ∧ (∀ (zipKey : String) (files : List String),
        env zipKey = Except.ok files →
        (∀ f ∈ files, strEndsWith f ".csv" = false) →
        download_and_extract_zip env zipKey
          = Except.error ("No CSV file found in ZIP: " ++ zipKey)) := by
  intro env zipManifests
  constructor
  · intro csvPath
    simp only [extract_all_zip_files_parallel, List.mem_filterMap]
    constructor
    · rintro ⟨zipKey, hmem, hok⟩
      refine ⟨zipKey, hmem, ?_⟩
      cases h : download_and_extract_zip env zipKey with
      | error e => rw [h] at hok; simp [Except.toOption] at hok
      | ok c =>
        rw [h] at hok
        simp only [Except.toOption] at hok
        cases hok
        rfl
    · rintro ⟨zipKey, hmem, hok⟩
      exact ⟨zipKey, hmem, by rw [hok]; rfl⟩
  · intro zipKey files henv hnone
    simp only [download_and_extract_zip, henv]
    have hfind : files.find? (fun f => strEndsWith f ".csv") = none := by
      rw [List.find?_eq_none]
      intro x hx
      rw [hnone x hx]
      simp
    rw [hfind]

theorem c8_zip_extraction_isolation_witness :
    ("data.csv" ∈ extract_all_zip_files_parallel c8Env
        [⟨"reports", ["reports/a.zip", "reports/b.zip"]⟩])
    ∧ download_and_extract_zip c8Env "reports/a.zip"
        = Except.error ("No CSV file found in ZIP: " ++ "reports/a.zip") := by
  constructor
  · exact ((c8_zip_extraction_isolation c8Env
      [⟨"reports", ["reports/a.zip", "reports/b.zip"]⟩]).1 "data.csv").mpr
      ⟨"reports/b.zip", by decide, by rfl⟩
  · exact (c8_zip_extraction_isolation c8Env
      [⟨"reports", ["reports/a.zip", "reports/b.zip"]⟩]).2
      "reports/a.zip" ["part.txt"] (by rfl) (by decide)

/-- Claim C9: discovery ends as a clean no-op — exit code 0 with the
persisted state exactly the prior state, unchanged — precisely when zero
manifests survive filtering; otherwise it proceeds with the filtered
manifests (and performs no state write). -/
theorem c9_no_manifests_noop :
    ∀ (sinceLast : Bool) (manifests : List MgrManifest)
      (sinceTimestamp untilTimestamp : Date) (lastState : ComponentState),
    (discover_available_reports sinceLast manifests sinceTimestamp
        untilTimestamp lastState
      = DiscoverOutcome.cleanNoOp lastState 0 ↔
        (if sinceLast then manifests
         else filter_manifests_by_date_range manifests sinceTimestamp
            untilTimestamp) = [])
    ∧ (discover_available_reports sinceLast manifests sinceTimestamp
          untilTimestamp lastState
        = DiscoverOutcome.cleanNoOp lastState 0
      ∨ discover_available_reports sinceLast manifests sinceTimestamp
          untilTimestamp lastState
        = DiscoverOutcome.proceed
            (if sinceLast then manifests
             else filter_manifests_by_date_range manifests sinceTimestamp
                untilTimestamp)) := by
  intro sinceLast manifests sinceTimestamp untilTimestamp lastState
  simp only [discover_available_reports]
  cases h : (if sinceLast then manifests
      else filter_manifests_by_date_range manifests sinceTimestamp
        untilTimestamp).isEmpty
  · rw [List.isEmpty_eq_false] at h
    simp [h]
  · rw [List.isEmpty_iff] at h
    simp [h]

end AwsCur
